import Mathlib

/-!
Verification of the robots-coevolution repository (src/robots.py, src/gputils.py).

Embedding conventions:
* Every Python float value is an exact rational, so finite numeric state is
  modelled by `ℚ`; the special float values produced by overflow are modelled
  by the `PyFloat` type (`finite`, `inf`, `neginf`, `nan`).
* Integer-valued state (`health`, `ammo`) stays integer in the source
  (literals 100, 50, 20, 10, 1 combined with plus, minus and min), so it is
  modelled by `ℤ`.
* The transcendental primitives of Python's `math` module (`cos`, `sin`,
  `atan2`, `sqrt`) and the constant `math.pi` are float functions/values;
  they are abstracted as the fields of a `MathLib` record and every theorem
  quantifies over the record (with the concrete arithmetic facts a given
  claim needs taken as hypotheses).
* Python's `%` on floats rounds toward negative infinity, i.e.
  `x % y = x - y * ⌊x / y⌋`; this is `fmod` below.
* Python exceptions are modelled by `Except String`; the raising conversion
  `int(...)` on non-finite floats is `pyInt`.
* All calls to the `random` module are abstracted as explicit streams of
  draws (`ℕ → ℚ` for `random.uniform`, `ℕ → Bool` for the probability coin
  `random.random() < p`, `ℕ → ℕ` for `random.choice` indices), consumed at
  fixed positions exactly in the source's call order.
-/

/- Batteries marks the `Rat` arithmetic operations `@[irreducible]`, which
blocks `decide`/`rfl` evaluation of the embedded program on concrete
rational inputs; restore the normal reducibility of these computable
definitions so that concrete runs reduce. -/
set_option allowUnsafeReducibility true

attribute [semireducible] Rat.add Rat.mul Rat.inv Rat.sub Rat.div

namespace RobotsCoev

/-- A Python float: an exact rational, or one of the non-finite values. -/
inductive PyFloat : Type where
  | finite (q : ℚ)
  | inf
  | neginf
  | nan
deriving DecidableEq

/-- `abs` on Python floats. -/
def pyAbs : PyFloat → PyFloat
  | .finite q => .finite |q|
  | .inf => .inf
  | .neginf => .inf
  | .nan => .nan

/-- Truncation toward zero, the behaviour of Python's `int()` on a finite float. -/
def pyTrunc (q : ℚ) : ℤ :=
  if 0 ≤ q then ⌊q⌋ else -⌊-q⌋

/-- Python's `int()` on a float: truncates finite values, raises
`OverflowError` on infinities and `ValueError` on NaN. -/
def pyInt : PyFloat → Except String ℤ
  | .finite q => .ok (pyTrunc q)
  | .inf => .error "OverflowError"
  | .neginf => .error "OverflowError"
  | .nan => .error "ValueError"

/-- Whether a Python float is finite. -/
def PyFloat.isFinite : PyFloat → Bool
  | .finite _ => true
  | _ => false

/-- Python's `%` on floats (floor-division remainder, sign of the divisor). -/
def fmod (x y : ℚ) : ℚ := x - y * ⌊x / y⌋

/-- Python float division `a / b` (gputils.py line 45): raises
`ZeroDivisionError` when the divisor is exactly zero. -/
def pydiv (a b : ℚ) : Except String ℚ :=
  if b = 0 then .error "ZeroDivisionError" else .ok (a / b)

/-- `protected_div` from `create_primitive_set` (gputils.py lines 43-48):
`try: return a / b except ZeroDivisionError: return 1`. -/
def protected_div (a b : ℚ) : ℚ :=
  match pydiv a b with
  | .ok q => q
  | .error _ => 1

/-- The float primitives of Python's `math` module used by robots.py,
abstracted: each Python float function is some `ℚ → ℚ`, and `math.pi` is
some rational (the nearest double to π). -/
structure MathLib : Type where
  cos : ℚ → ℚ
  sin : ℚ → ℚ
  atan2 : ℚ → ℚ → ℚ
  sqrt : ℚ → ℚ
  pi : ℚ

/-- The sensor dictionary of a robot (robots.py lines 31-37). -/
structure Sensors : Type where
  enemy_distance : ℚ
  enemy_direction : ℚ
  health : ℚ
  ammo : ℚ
  wall_distance : ℚ
deriving DecidableEq

/-- The robot state (robots.py `Robot.__init__`, lines 24-37). -/
structure Robot : Type where
  x : ℚ
  y : ℚ
  health : ℤ
  ammo : ℤ
  direction : ℚ
  last_action : Option String
  sensors : Sensors
deriving DecidableEq

/-- `Robot(x, y)` with default health 100 and ammo 50 (robots.py lines
24-37).  The random initial facing `random.uniform(0, 2*math.pi)` is the
explicit draw `d`. -/
def Robot.init (x y d : ℚ) : Robot :=
  { x := x, y := y, health := 100, ammo := 50, direction := d,
    last_action := none,
    sensors := { enemy_distance := 0, enemy_direction := 0, health := 100,
                 ammo := 50, wall_distance := 0 } }

/-- `Robot.update_sensors` (robots.py lines 39-57). -/
def update_sensors (m : MathLib) (self opp : Robot) (arena_size : ℚ) : Robot :=
  let dx := opp.x - self.x
  let dy := opp.y - self.y
  { self with sensors :=
    { enemy_distance := m.sqrt (dx ^ 2 + dy ^ 2)
      enemy_direction := fmod (m.atan2 dy dx - self.direction) (2 * m.pi)
      health := (self.health : ℚ)
      ammo := (self.ammo : ℚ)
      wall_distance := min (min (min self.x (arena_size - self.x)) self.y)
        (arena_size - self.y) } }

/-- The hit test of the shoot branch (robots.py lines 84-92): the wrapped
angular difference is below π/8 and the distance to the opponent is below
50. -/
def shotHits (m : MathLib) (self opp : Robot) : Prop :=
  |fmod (m.atan2 (opp.y - self.y) (opp.x - self.x) - self.direction)
      (2 * m.pi)| < m.pi / 8 ∧
    m.sqrt ((opp.x - self.x) ^ 2 + (opp.y - self.y) ^ 2) < 50

instance (m : MathLib) (self opp : Robot) : Decidable (shotHits m self opp) :=
  inferInstanceAs (Decidable (_ ∧ _))

/-- `Robot.execute_action` (robots.py lines 59-99).  Returns the updated
pair `(self, opponent)`; only the shoot branch can change the opponent. -/
def execute_action (m : MathLib) (self opp : Robot) (action : String)
    (arena_size : ℚ) : Robot × Robot :=
  let s := { self with last_action := some action }
  if action = "move_forward" then
    let new_x := s.x + 5 * m.cos s.direction
    let new_y := s.y + 5 * m.sin s.direction
    if 0 ≤ new_x ∧ new_x ≤ arena_size ∧ 0 ≤ new_y ∧ new_y ≤ arena_size then
      ({ s with x := new_x, y := new_y }, opp)
    else (s, opp)
  else if action = "turn_left" then
    ({ s with direction := fmod (s.direction - m.pi / 8) (2 * m.pi) }, opp)
  else if action = "turn_right" then
    ({ s with direction := fmod (s.direction + m.pi / 8) (2 * m.pi) }, opp)
  else if action = "shoot" ∧ 0 < self.ammo then
    let s2 := { s with ammo := s.ammo - 1 }
    if shotHits m s2 opp then (s2, { opp with health := opp.health - 20 })
    else (s2, opp)
  else if action = "reload" then
    ({ s with ammo := min 50 (s.ammo + 10) }, opp)
  else
    (s, opp)

/-- Iterated `execute_action` of one robot against an opponent: the
left robot performs each listed action in turn (the opponent only suffers
them). -/
def execSeq (m : MathLib) (arena : ℚ) : Robot × Robot → List String → Robot × Robot
  | p, [] => p
  | p, a :: rest => execSeq m arena (execute_action m p.1 p.2 a arena) rest

/-- The ordered action list of `select_action` (gputils.py lines 171-178). -/
def actions : List String :=
  ["move_forward", "turn_left", "turn_right", "shoot", "reload", "do_nothing"]

/-- `select_action` (gputils.py lines 162-180):
`action_num = int(abs(output)) % 6; return actions[action_num]`.
`int()` raises on non-finite input, and Python list indexing would raise
`IndexError` out of range. -/
def select_action (output : PyFloat) : Except String String := do
  let n ← pyInt (pyAbs output)
  let action_num := (n.emod 6).toNat
  if h : action_num < actions.length then .ok (actions.get ⟨action_num, h⟩)
  else .error "IndexError"

/-- A compiled GP individual (`toolbox.compile(expr=ind)`): a function from
the five sensor readings to a float output.  Compilation is deterministic,
so an individual is carried in compiled form. -/
abbrev Prog : Type := ℚ → ℚ → ℚ → ℚ → ℚ → PyFloat

/-- One tick of the battle loop of `evaluate_individuals` (gputils.py lines
119-151, body): update both sensor snapshots, run both compiled trees,
map both outputs to actions, then apply robot 1's action before robot 2's. -/
def battleStep (m : MathLib) (f1 f2 : Prog) (arena : ℚ) (r1 r2 : Robot) :
    Except String (Robot × Robot) :=
  let r1 := update_sensors m r1 r2 arena
  let r2 := update_sensors m r2 r1 arena
  let output1 := f1 r1.sensors.enemy_distance r1.sensors.enemy_direction
    r1.sensors.health r1.sensors.ammo r1.sensors.wall_distance
  let output2 := f2 r2.sensors.enemy_distance r2.sensors.enemy_direction
    r2.sensors.health r2.sensors.ammo r2.sensors.wall_distance
  match select_action output1 with
  | .error e => .error e
  | .ok action1 =>
    match select_action output2 with
    | .error e => .error e
    | .ok action2 =>
      let (r1, r2) := execute_action m r1 r2 action1 arena
      let (r2, r1) := execute_action m r2 r1 action2 arena
      .ok (r1, r2)

/-- The battle loop `for _ in range(max_steps)` with the early exit
`if robot1.health <= 0 or robot2.health <= 0: break` (gputils.py lines
119-151). -/
def battleLoop (m : MathLib) (f1 f2 : Prog) (arena : ℚ) :
    ℕ → Robot → Robot → Except String (Robot × Robot)
  | 0, r1, r2 => .ok (r1, r2)
  | steps + 1, r1, r2 =>
    match battleStep m f1 f2 arena r1 r2 with
    | .error e => .error e
    | .ok (r1, r2) =>
      if r1.health ≤ 0 ∨ r2.health ≤ 0 then .ok (r1, r2)
      else battleLoop m f1 f2 arena steps r1 r2

/-- The fitness update after a battle (gputils.py lines 153-157). -/
def fitnessUpdate (fit1 fit2 : ℚ) (r1 r2 : Robot) : ℚ × ℚ :=
  if 0 < r1.health ∧ r2.health ≤ 0 then (fit1 + 1, fit2)
  else if 0 < r2.health ∧ r1.health ≤ 0 then (fit1, fit2 + 1)
  else (fit1, fit2)

/-- One full match between two compiled individuals starting from given
robots and given current fitness values: the battle loop followed by the
fitness update (gputils.py lines 119-157). -/
def runMatch (m : MathLib) (f1 f2 : Prog) (arena : ℚ) (steps : ℕ)
    (r1 r2 : Robot) (fit1 fit2 : ℚ) :
    Except String (ℚ × ℚ × Robot × Robot) :=
  match battleLoop m f1 f2 arena steps r1 r2 with
  | .error e => .error e
  | .ok (r1, r2) =>
    let (g1, g2) := fitnessUpdate fit1 fit2 r1 r2
    .ok (g1, g2, r1, r2)

/-- A DEAP individual: a GP tree together with its fitness state.  The
fitness is `none` when invalid (`del ind.fitness.values`) and `some s`
when `ind.fitness.values = (s,)`.  The tree is carried in compiled form
(`toolbox.compile` is deterministic). -/
structure Ind : Type where
  program : Prog
  fitness : Option ℚ

/-- Placeholder program for out-of-range list indexing defaults (never
reached on in-range indices). -/
def defProg : Prog := fun _ _ _ _ _ => .finite 0

/-- Placeholder individual for out-of-range list indexing defaults. -/
def dInd : Ind := { program := defProg, fitness := none }

/-- The fitness-initialization pass of `evaluate_individuals` (gputils.py
lines 96-102): any individual whose fitness is invalid gets score 0; a
valid score is left untouched. -/
def evalInit (pop : List Ind) : List Ind :=
  pop.map fun i => { i with fitness := some (i.fitness.getD 0) }

/-- Store the final round-robin scores back into the individuals. -/
def writeBack (pop : List Ind) (scores : List ℚ) : List Ind :=
  List.zipWith (fun i s => { i with fitness := some s }) pop scores

/-- The two robots created for match number `k` (gputils.py lines 109-112):
four `random.uniform(50, arena_size-50)` draws for the positions and the
two `random.uniform(0, 2*math.pi)` facing draws inside `Robot.__init__`,
in source call order. -/
def mkMatchRobots (rand : ℕ → ℚ) (k : ℕ) : Robot × Robot :=
  (Robot.init (rand (6 * k)) (rand (6 * k + 1)) (rand (6 * k + 2)),
   Robot.init (rand (6 * k + 3)) (rand (6 * k + 4)) (rand (6 * k + 5)))

/-- The match of pair `ab = (i, j)` of the round robin, run from fitness
pair `(0, 0)`: its result is the fitness credit this match awards. -/
def pairOutcome (m : MathLib) (rand : ℕ → ℚ) (arena : ℚ) (steps n2 : ℕ)
    (progs1 progs2 : List Prog) (ab : ℕ × ℕ) :
    Except String (ℚ × ℚ × Robot × Robot) :=
  runMatch m (progs1.getD ab.1 defProg) (progs2.getD ab.2 defProg)
    arena steps (mkMatchRobots rand (ab.1 * n2 + ab.2)).1
    (mkMatchRobots rand (ab.1 * n2 + ab.2)).2 0 0

/-- One iteration of the competition double loop of `evaluate_individuals`
(gputils.py lines 105-157): create the two robots, run the match, and
update the two current scores in place. -/
def rrStep (m : MathLib) (rand : ℕ → ℚ) (arena : ℚ) (steps n2 : ℕ)
    (progs1 progs2 : List Prog) (st : List ℚ × List ℚ) (ab : ℕ × ℕ) :
    Except String (List ℚ × List ℚ) :=
  match runMatch m (progs1.getD ab.1 defProg) (progs2.getD ab.2 defProg)
      arena steps (mkMatchRobots rand (ab.1 * n2 + ab.2)).1
      (mkMatchRobots rand (ab.1 * n2 + ab.2)).2
      (st.1.getD ab.1 0) (st.2.getD ab.2 0) with
  | .error e => .error e
  | .ok res => .ok (st.1.set ab.1 res.1, st.2.set ab.2 res.2.1)

/-- The competition double loop itself: play the listed index pairs in
order, threading the current score lists. -/
def rrLoop (m : MathLib) (rand : ℕ → ℚ) (arena : ℚ) (steps n2 : ℕ)
    (progs1 progs2 : List Prog) :
    List (ℕ × ℕ) → List ℚ × List ℚ → Except String (List ℚ × List ℚ)
  | [], st => .ok st
  | ab :: rest, st =>
    match rrStep m rand arena steps n2 progs1 progs2 st ab with
    | .error e => .error e
    | .ok st2 => rrLoop m rand arena steps n2 progs1 progs2 rest st2

/-- The row-major list of index pairs of the `for ind1 in pop1: for ind2 in
pop2:` double loop. -/
def allPairs (n1 n2 : ℕ) : List (ℕ × ℕ) :=
  (List.range n1).flatMap fun i => (List.range n2).map fun j => (i, j)

/-- `evaluate_individuals` (gputils.py lines 78-157): initialize any
invalid fitness to 0, then play the full cross-population round robin,
accumulating fitness credit into the current scores. -/
def evaluate_individuals (m : MathLib) (rand : ℕ → ℚ) (arena : ℚ)
    (steps : ℕ) (pop1 pop2 : List Ind) :
    Except String (List Ind × List Ind) :=
  let p1 := evalInit pop1
  let p2 := evalInit pop2
  match rrLoop m rand arena steps p2.length (p1.map (·.program))
      (p2.map (·.program)) (allPairs p1.length p2.length)
      (p1.map fun i => i.fitness.getD 0, p2.map fun i => i.fitness.getD 0) with
  | .error e => .error e
  | .ok st => .ok (writeBack p1 st.1, writeBack p2 st.2)

/-- The pop1-side fitness credit awarded by match `(i, j)` (0 when the
match would raise). -/
def credit1 (m : MathLib) (rand : ℕ → ℚ) (arena : ℚ) (steps n2 : ℕ)
    (progs1 progs2 : List Prog) (i j : ℕ) : ℚ :=
  ((pairOutcome m rand arena steps n2 progs1 progs2 (i, j)).toOption.getD
    (0, 0, Robot.init 0 0 0, Robot.init 0 0 0)).1

/-- The pop2-side fitness credit awarded by match `(i, j)`. -/
def credit2 (m : MathLib) (rand : ℕ → ℚ) (arena : ℚ) (steps n2 : ℕ)
    (progs1 progs2 : List Prog) (i j : ℕ) : ℚ :=
  ((pairOutcome m rand arena steps n2 progs1 progs2 (i, j)).toOption.getD
    (0, 0, Robot.init 0 0 0, Robot.init 0 0 0)).2.1

/-- Number of wins of `pop1` individual `i` over the round robin of one
generation. -/
def winCount1 (m : MathLib) (rand : ℕ → ℚ) (arena : ℚ) (steps n2 : ℕ)
    (progs1 progs2 : List Prog) (i : ℕ) : ℕ :=
  ((List.range n2).filter
    (fun j => decide (credit1 m rand arena steps n2 progs1 progs2 i j = 1))).length

/-- Number of wins of `pop2` individual `j` over the round robin of one
generation. -/
def winCount2 (m : MathLib) (rand : ℕ → ℚ) (arena : ℚ) (steps n1 n2 : ℕ)
    (progs1 progs2 : List Prog) (j : ℕ) : ℕ :=
  ((List.range n1).filter
    (fun i => decide (credit2 m rand arena steps n2 progs1 progs2 i j = 1))).length

/-- Reading an individual's score (`ind.fitness.values[0]`; 0 default is
never reached on evaluated individuals). -/
def fitnessVal (i : Ind) : ℚ := i.fitness.getD 0

/-- DEAP's `tools.selTournament(pop, k, tournsize)` with the random
aspirant choices given by the explicit index stream `choice`: `k` times,
draw `tournsize` individuals with replacement and keep the first one of
maximal fitness (registered in `setup_evolution`, gputils.py line 216). -/
def selTournament (choice : ℕ → ℕ) (pop : List Ind) (k tournsize : ℕ) :
    List Ind :=
  (List.range k).map fun i =>
    let first := pop.getD (choice (i * tournsize)) dInd
    (List.range (tournsize - 1)).foldl
      (fun best j =>
        let asp := pop.getD (choice (i * tournsize + j + 1)) dInd
        if fitnessVal best < fitnessVal asp then asp else best)
      first

/-- `del ind.fitness.values`: invalidate the fitness. -/
def delFit (i : Ind) : Ind := { i with fitness := none }

/-- The crossover pass over consecutive pairs `(0,1), (2,3), ...` of the
offspring pool (gputils.py lines 265-275): when the coin for a pair fires,
mate the pair and invalidate both fitnesses. -/
def varyCx (coins : ℕ → Bool) (mate : Ind → Ind → Ind × Ind) :
    ℕ → List Ind → List Ind
  | k, a :: b :: rest =>
    if coins k then
      let (a2, b2) := mate a b
      delFit a2 :: delFit b2 :: varyCx coins mate (k + 1) rest
    else
      a :: b :: varyCx coins mate (k + 1) rest
  | _, l => l

/-- The mutation pass over the offspring pool (gputils.py lines 277-286):
when the coin for an individual fires, mutate it and invalidate its
fitness. -/
def varyMut (coins : ℕ → Bool) (mutate : Ind → Ind) (off : List Ind) :
    List Ind :=
  off.mapIdx fun k i => if coins k then delFit (mutate i) else i

/-- One population's offspring pool right before the round robin of a
generation: tournament selection of `len(pop)` individuals, clone, the
crossover pass, the mutation pass (gputils.py lines 256-286).  Cloning is
implicit: lists of immutable values copy on use. -/
def varied (selChoice : ℕ → ℕ) (cxCoins mutCoins : ℕ → Bool)
    (mate : Ind → Ind → Ind × Ind) (mutate : Ind → Ind) (pop : List Ind) :
    List Ind :=
  varyMut mutCoins mutate
    (varyCx cxCoins mate 0 (selTournament selChoice pop pop.length 3))

/-- One generation of the evolutionary loop of `coevolution` up to the
population replacement (gputils.py lines 254-291): build both offspring
pools, then evaluate them against each other. -/
def generationStep (m : MathLib) (rand : ℕ → ℚ) (selC1 selC2 : ℕ → ℕ)
    (cx1 cx2 mut1 mut2 : ℕ → Bool) (mate : Ind → Ind → Ind × Ind)
    (mutate : Ind → Ind) (arena : ℚ) (steps : ℕ) (pop1 pop2 : List Ind) :
    Except String (List Ind × List Ind) :=
  evaluate_individuals m rand arena steps
    (varied selC1 cx1 mut1 mate mutate pop1)
    (varied selC2 cx2 mut2 mate mutate pop2)

/-- `toolbox.population(n)` = `[toolbox.individual() for _ in range(n)]`
with the i-th randomly generated individual given by the stream `indGen`;
`range` of a non-positive count is empty. -/
def population (indGen : ℕ → Ind) (n : ℤ) : List Ind :=
  (List.range n.toNat).map indGen

/-- `sum(fits) / len(fits)` (gputils.py line 297): Python division raises
`ZeroDivisionError` on an empty list. -/
def pyAvg (l : List ℚ) : Except String ℚ :=
  pydiv l.sum (l.length : ℚ)

/-- Python `max` over a list (gputils.py line 298): raises `ValueError` on
an empty list. -/
def pyMax (l : List ℚ) : Except String ℚ :=
  match l with
  | [] => .error "ValueError"
  | x :: xs => .ok (xs.foldl max x)

/-- The per-coevolution-run logging state: both populations plus the four
statistics series. -/
abbrev CoevState : Type :=
  List Ind × List Ind × List ℚ × List ℚ × List ℚ × List ℚ

/-- The body of `for gen in tqdm(range(generations))` (gputils.py lines
254-301): one generation step, replacement, then the average/maximum
fitness logging for both sides. -/
def coevGen (m : MathLib) (grand : ℕ → ℕ → ℚ) (gsel1 gsel2 : ℕ → ℕ → ℕ)
    (gcx1 gcx2 gmut1 gmut2 : ℕ → ℕ → Bool) (mate : Ind → Ind → Ind × Ind)
    (mutate : Ind → Ind) (st : CoevState) (gen : ℕ) :
    Except String CoevState :=
  let (pop1, pop2, a1, m1, a2, m2) := st
  match generationStep m (grand gen) (gsel1 gen) (gsel2 gen)
      (gcx1 gen) (gcx2 gen) (gmut1 gen) (gmut2 gen) mate mutate 200 100
      pop1 pop2 with
  | .error e => .error e
  | .ok (pop1, pop2) =>
    let fits1 := pop1.map fitnessVal
    let fits2 := pop2.map fitnessVal
    match pyAvg fits1 with
    | .error e => .error e
    | .ok avg1 =>
      match pyMax fits1 with
      | .error e => .error e
      | .ok mx1 =>
        match pyAvg fits2 with
        | .error e => .error e
        | .ok avg2 =>
          match pyMax fits2 with
          | .error e => .error e
          | .ok mx2 =>
            .ok (pop1, pop2, a1 ++ [avg1], m1 ++ [mx1], a2 ++ [avg2],
              m2 ++ [mx2])

/-- The generational loop: run `coevGen` for each listed generation
index, stopping at the first raised exception. -/
def coevLoop (m : MathLib) (grand : ℕ → ℕ → ℚ) (gsel1 gsel2 : ℕ → ℕ → ℕ)
    (gcx1 gcx2 gmut1 gmut2 : ℕ → ℕ → Bool) (mate : Ind → Ind → Ind × Ind)
    (mutate : Ind → Ind) : List ℕ → CoevState → Except String CoevState
  | [], st => .ok st
  | g :: rest, st =>
    match coevGen m grand gsel1 gsel2 gcx1 gcx2 gmut1 gmut2 mate mutate
        st g with
    | .error e => .error e
    | .ok st2 =>
      coevLoop m grand gsel1 gsel2 gcx1 gcx2 gmut1 gmut2 mate mutate rest st2

/-- `coevolution(pop_size, generations, ...)` (gputils.py lines 223-303):
build the two populations, run the initial round robin, then the
generational loop, with the source's hard-wired `arena_size=200` and
`max_steps=100`.  All random draws are explicit streams (`rand0` for the
initial evaluation, the `g`-prefixed streams indexed by generation), and
the registered DEAP variation operators are the `mate`/`mutate`
parameters. -/
def coevolution (m : MathLib) (indGen1 indGen2 : ℕ → Ind) (rand0 : ℕ → ℚ)
    (grand : ℕ → ℕ → ℚ) (gsel1 gsel2 : ℕ → ℕ → ℕ)
    (gcx1 gcx2 gmut1 gmut2 : ℕ → ℕ → Bool) (mate : Ind → Ind → Ind × Ind)
    (mutate : Ind → Ind) (pop_size generations : ℤ) :
    Except String CoevState :=
  let pop1 := population indGen1 pop_size
  let pop2 := population indGen2 pop_size
  match evaluate_individuals m rand0 200 100 pop1 pop2 with
  | .error e => .error e
  | .ok (pop1, pop2) =>
    coevLoop m grand gsel1 gsel2 gcx1 gcx2 gmut1 gmut2 mate mutate
      (List.range generations.toNat) (pop1, pop2, [], [], [], [])

/-- Modelled from the spec: the expression-tree data model of section 3
("`Terminal{...}` or `Function{primitive-id, ordered list of child Node}`"),
needed because the crossover operator `gp.cxOnePoint` registered at
gputils.py line 209 is DEAP library code not under src/.  Labels are
abstract identifiers; a terminal is a node with no children. -/
inductive GTree : Type where
  | node (label : ℕ) (children : List GTree)

mutual

/-- Node count of a tree (the spec's derived `size`). -/
def GTree.size : GTree → ℕ
  | .node _ cs => GTree.sizeList cs + 1

/-- Total node count of a list of trees. -/
def GTree.sizeList : List GTree → ℕ
  | [] => 0
  | t :: ts => GTree.size t + GTree.sizeList ts

end

/-- The subtree rooted at path `p` (child indices from the root), when the
path is valid. -/
def getSub : List ℕ → GTree → Option GTree
  | [], t => some t
  | i :: p, .node _ cs => (cs.get? i).bind (getSub p)

/-- Replace the subtree rooted at path `p` by `s` (identity on an invalid
path). -/
def setSub : List ℕ → GTree → GTree → GTree
  | [], _, s => s
  | i :: p, .node l cs, s =>
    match cs.get? i with
    | none => .node l cs
    | some c => .node l (cs.set i (setSub p c s))

/-- Modelled from the spec: DEAP's `gp.cxOnePoint` subtree crossover
(section 4.5: "pick a node uniformly at random within each parent's tree
and swap the two subtrees rooted there"), with the two random crossover
points given as explicit paths; the parents are returned unchanged when a
chosen point is invalid. -/
def cxOnePoint (p1 p2 : List ℕ) (t1 t2 : GTree) : GTree × GTree :=
  match getSub p1 t1, getSub p2 t2 with
  | some s1, some s2 => (setSub p1 t1 s2, setSub p2 t2 s1)
  | _, _ => (t1, t2)

/-! Concrete objects used by counterexamples and witnesses. -/

/-- A concrete stand-in for the abstract float math library, for closed
evaluations where the claims do not depend on its values. -/
def zeroLib : MathLib :=
  { cos := fun _ => 0, sin := fun _ => 0, atan2 := fun _ _ => 0,
    sqrt := fun _ => 0, pi := 157 / 50 }

/-- A concrete math library satisfying the arithmetic facts of the C4
shoot scenario: `atan2(0, 40) = 0`, `sqrt(1600) = 40`, `pi > 0`. -/
def testLib : MathLib :=
  { cos := fun _ => 0, sin := fun _ => 0,
    atan2 := fun y x => if y = 0 ∧ 0 < x then 0 else 1,
    sqrt := fun q => if q = 1600 then 40 else 0, pi := 157 / 50 }

/-- A compiled tree that always outputs 5.0 (mapped to `do_nothing`). -/
def cProg : Prog := fun _ _ _ _ _ => .finite 5

/-- A compiled tree whose output has overflowed to `inf`. -/
def infProg : Prog := fun _ _ _ _ _ => .inf

/-- The shooter of the spec's deterministic match fragment: position
(60,100), heading 0. -/
def shooterA : Robot :=
  { x := 60, y := 100, health := 100, ammo := 50, direction := 0,
    last_action := none,
    sensors := { enemy_distance := 0, enemy_direction := 0, health := 100,
                 ammo := 50, wall_distance := 0 } }

/-- The target of the spec's deterministic match fragment: position
(100,100), arbitrary heading `d`. -/
def targetB (d : ℚ) : Robot :=
  { x := 100, y := 100, health := 100, ammo := 50, direction := d,
    last_action := none,
    sensors := { enemy_distance := 0, enemy_direction := 0, health := 100,
                 ammo := 50, wall_distance := 0 } }

/-- A robot with empty ammo and no recorded action. -/
def ammo0Bot : Robot := { shooterA with ammo := 0 }

/-- An already-evaluated individual with accumulated score 3. -/
def indA : Ind := { program := cProg, fitness := some 3 }

/-- An already-evaluated individual with accumulated score 2. -/
def indB : Ind := { program := cProg, fitness := some 2 }

/-! Helper lemmas. -/

instance {ε α : Type} [DecidableEq ε] [DecidableEq α] :
    DecidableEq (Except ε α) := fun x y =>
  match x, y with
  | .ok a, .ok b => decidable_of_iff (a = b) (by simp)
  | .error e, .error f => decidable_of_iff (e = f) (by simp)
  | .ok _, .error _ => isFalse fun h => Except.noConfusion h
  | .error _, .ok _ => isFalse fun h => Except.noConfusion h

lemma pyTrunc_abs (q : ℚ) : pyTrunc |q| = ⌊|q|⌋ := by
  simp [pyTrunc, abs_nonneg]

lemma select_action_finite (q : ℚ) :
    select_action (.finite q) =
      .ok (actions.getD ((⌊|q|⌋).emod 6).toNat "") := by
  have h0 : (0 : ℤ) ≤ (⌊|q|⌋).emod 6 := Int.emod_nonneg _ (by norm_num)
  have h6 : (⌊|q|⌋).emod 6 < 6 := Int.emod_lt_of_pos _ (by norm_num)
  have hlt : ((⌊|q|⌋).emod 6).toNat < actions.length := by
    simp only [actions, List.length]
    omega
  have h1 : select_action (.finite q) =
      if h : ((pyTrunc |q|).emod 6).toNat < actions.length then
        .ok (actions.get ⟨((pyTrunc |q|).emod 6).toNat, h⟩)
      else .error "IndexError" := rfl
  rw [h1, pyTrunc_abs, dif_pos hlt, List.getD_eq_getElem _ _ hlt]
  simp

/-- Branch characterization: `move_forward`. -/
lemma exec_move (m : MathLib) (self opp : Robot) (arena : ℚ) :
    execute_action m self opp "move_forward" arena =
      if 0 ≤ self.x + 5 * m.cos self.direction ∧
          self.x + 5 * m.cos self.direction ≤ arena ∧
          0 ≤ self.y + 5 * m.sin self.direction ∧
          self.y + 5 * m.sin self.direction ≤ arena then
        ({ self with x := self.x + 5 * m.cos self.direction,
                     y := self.y + 5 * m.sin self.direction,
                     last_action := some "move_forward" }, opp)
      else ({ self with last_action := some "move_forward" }, opp) := rfl

/-- Branch characterization: `turn_left`. -/
lemma exec_turn_left (m : MathLib) (self opp : Robot) (arena : ℚ) :
    execute_action m self opp "turn_left" arena =
      ({ self with direction := fmod (self.direction - m.pi / 8) (2 * m.pi),
                   last_action := some "turn_left" }, opp) := rfl

/-- Branch characterization: `turn_right`. -/
lemma exec_turn_right (m : MathLib) (self opp : Robot) (arena : ℚ) :
    execute_action m self opp "turn_right" arena =
      ({ self with direction := fmod (self.direction + m.pi / 8) (2 * m.pi),
                   last_action := some "turn_right" }, opp) := rfl

/-- Branch characterization: `reload`. -/
lemma exec_reload (m : MathLib) (self opp : Robot) (arena : ℚ) :
    execute_action m self opp "reload" arena =
      ({ self with ammo := min 50 (self.ammo + 10),
                   last_action := some "reload" }, opp) := rfl

/-- Branch characterization: `do_nothing`. -/
lemma exec_do_nothing (m : MathLib) (self opp : Robot) (arena : ℚ) :
    execute_action m self opp "do_nothing" arena =
      ({ self with last_action := some "do_nothing" }, opp) := rfl

/-- Branch characterization: `shoot` without ammo. -/
lemma exec_shoot_empty (m : MathLib) (self opp : Robot) (arena : ℚ)
    (hz : self.ammo ≤ 0) :
    execute_action m self opp "shoot" arena =
      ({ self with last_action := some "shoot" }, opp) :=
  if_neg (fun hc : ("shoot" : String) = "shoot" ∧ 0 < self.ammo =>
    absurd hc.2 (by omega))

/-- Branch characterization: `shoot` with ammo. -/
lemma exec_shoot_live (m : MathLib) (self opp : Robot) (arena : ℚ)
    (hpos : 0 < self.ammo) :
    execute_action m self opp "shoot" arena =
      if shotHits m { self with ammo := self.ammo - 1,
                                last_action := some "shoot" } opp then
        ({ self with ammo := self.ammo - 1, last_action := some "shoot" },
         { opp with health := opp.health - 20 })
      else
        ({ self with ammo := self.ammo - 1, last_action := some "shoot" },
         opp) :=
  if_pos (⟨rfl, hpos⟩ : ("shoot" : String) = "shoot" ∧ 0 < self.ammo)

/-- Branch characterization: unrecognized action. -/
lemma exec_unknown (m : MathLib) (self opp : Robot) (action : String)
    (arena : ℚ) (n1 : action ≠ "move_forward") (n2 : action ≠ "turn_left")
    (n3 : action ≠ "turn_right") (n4 : action ≠ "shoot")
    (n5 : action ≠ "reload") :
    execute_action m self opp action arena =
      ({ self with last_action := some action }, opp) := by
  simp only [execute_action]
  rw [if_neg n1, if_neg n2, if_neg n3,
    if_neg (fun hc : action = "shoot" ∧ 0 < self.ammo => n4 hc.1),
    if_neg n5]

lemma fitnessUpdate_spec (fit1 fit2 : ℚ) (a b : Robot) :
    ((fitnessUpdate fit1 fit2 a b).1 = fit1 + 1 ↔
      0 < a.health ∧ b.health ≤ 0) ∧
    ((fitnessUpdate fit1 fit2 a b).2 = fit2 + 1 ↔
      0 < b.health ∧ a.health ≤ 0) ∧
    (¬(0 < a.health ∧ b.health ≤ 0) ∧ ¬(0 < b.health ∧ a.health ≤ 0) →
      (fitnessUpdate fit1 fit2 a b).1 = fit1 ∧
      (fitnessUpdate fit1 fit2 a b).2 = fit2) := by
  unfold fitnessUpdate
  split_ifs with h1 h2
  · refine ⟨⟨fun _ => h1, fun _ => rfl⟩, ⟨fun he => absurd he (by norm_num),
      fun hc => ?_⟩, fun hn => absurd h1 hn.1⟩
    exact absurd hc.2 (by omega)
  · refine ⟨⟨fun he => absurd he (by norm_num), fun hc => absurd hc h1⟩,
      ⟨fun _ => h2, fun _ => rfl⟩, fun hn => absurd h2 hn.2⟩
  · exact ⟨⟨fun he => absurd he (by norm_num), fun hc => absurd hc h1⟩,
      ⟨fun he => absurd he (by norm_num), fun hc => absurd hc h2⟩,
      fun _ => ⟨rfl, rfl⟩⟩

/-! Claim theorems. -/

/-- C6: the protected-division primitive returns 1 when the divisor is
exactly 0 (where the raw Python division raises `ZeroDivisionError`), and
returns the true quotient otherwise; being a total function into `ℚ`, it
never raises. -/
theorem protected_div_spec : ∀ a b : ℚ,
    (b = 0 → protected_div a b = 1 ∧ pydiv a b = .error "ZeroDivisionError") ∧
    (b ≠ 0 → protected_div a b = a / b) := by
  intro a b
  constructor
  · intro hb
    subst hb
    exact ⟨rfl, rfl⟩
  · intro hb
    simp [protected_div, pydiv, hb]

/-- C6 witness: concrete instances of both branches. -/
theorem protected_div_spec_instance :
    protected_div 5 0 = 1 ∧ protected_div 6 3 = 6 / 3 :=
  ⟨((protected_div_spec 5 0).1 rfl).1, (protected_div_spec 6 3).2 (by norm_num)⟩

/-- C3: on every finite output `q`, `select_action` succeeds and returns
the element of the ordered action list at index `⌊|q|⌋ mod 6`, which lies
in `{0..5}`; in particular output 7.9 maps to `turn_left` and output -6.0
to `move_forward`. -/
theorem select_action_total_map : ∀ q : ℚ,
    (select_action (.finite q) =
        .ok (actions.getD ((⌊|q|⌋).emod 6).toNat "") ∧
      0 ≤ (⌊|q|⌋).emod 6 ∧ (⌊|q|⌋).emod 6 < 6) ∧
    select_action (.finite (79 / 10)) = .ok "turn_left" ∧
    select_action (.finite (-6)) = .ok "move_forward" := by
  intro q
  refine ⟨⟨select_action_finite q, Int.emod_nonneg _ (by norm_num),
    Int.emod_lt_of_pos _ (by norm_num)⟩, by decide, by decide⟩

/-- C10: executing `do_nothing`, an attempted `shoot` with empty ammo, or
any unrecognized action string records the action in `last_action` and
changes nothing else on either robot. -/
theorem execute_action_frame :
    ∀ (m : MathLib) (self opp : Robot) (action : String) (arena : ℚ),
      action = "do_nothing" ∨ (action = "shoot" ∧ self.ammo = 0) ∨
        action ∉ actions →
      execute_action m self opp action arena =
        ({ self with last_action := some action }, opp) := by
  intro m self opp action arena h
  rcases h with h | ⟨h, ha⟩ | h
  · subst h
    exact exec_do_nothing m self opp arena
  · subst h
    exact exec_shoot_empty m self opp arena (by omega)
  · simp only [actions, List.mem_cons, List.not_mem_nil, or_false,
      not_or] at h
    obtain ⟨n1, n2, n3, n4, n5, n6⟩ := h
    exact exec_unknown m self opp action arena n1 n2 n3 n4 n5

/-- C10 witness: an unrecognized action on concrete robots. -/
theorem execute_action_frame_instance :
    execute_action zeroLib shooterA (targetB 7) "fly" 200 =
      ({ shooterA with last_action := some "fly" }, targetB 7) :=
  execute_action_frame zeroLib shooterA (targetB 7) "fly" 200
    (Or.inr (Or.inr (by decide)))

lemma execute_action_ammo (m : MathLib) (self opp : Robot) (action : String)
    (arena : ℚ) (h0 : 0 ≤ self.ammo) (h50 : self.ammo ≤ 50) :
    0 ≤ ((execute_action m self opp action arena).1).ammo ∧
    ((execute_action m self opp action arena).1).ammo ≤ 50 := by
  by_cases e1 : action = "move_forward"
  · subst e1
    rw [exec_move]
    split
    · exact ⟨h0, h50⟩
    · exact ⟨h0, h50⟩
  by_cases e2 : action = "turn_left"
  · subst e2
    rw [exec_turn_left]
    exact ⟨h0, h50⟩
  by_cases e3 : action = "turn_right"
  · subst e3
    rw [exec_turn_right]
    exact ⟨h0, h50⟩
  by_cases e4 : action = "shoot"
  · subst e4
    by_cases hpos : 0 < self.ammo
    · rw [exec_shoot_live m self opp arena hpos]
      split
      · show 0 ≤ self.ammo - 1 ∧ self.ammo - 1 ≤ 50
        omega
      · show 0 ≤ self.ammo - 1 ∧ self.ammo - 1 ≤ 50
        omega
    · rw [exec_shoot_empty m self opp arena (by omega)]
      exact ⟨h0, h50⟩
  by_cases e5 : action = "reload"
  · subst e5
    rw [exec_reload]
    show 0 ≤ min 50 (self.ammo + 10) ∧ min 50 (self.ammo + 10) ≤ 50
    omega
  · rw [exec_unknown m self opp action arena e1 e2 e3 e4 e5]
    exact ⟨h0, h50⟩

/-- C5: ammo starts at 50 and stays in `[0, 50]` under `execute_action`
with any action (hence under any action sequence); shoot decrements by 1
exactly when ammo is positive and reload sets ammo to
`min(50, ammo + 10)`. -/
theorem ammo_invariant :
    (∀ x y d : ℚ, (Robot.init x y d).ammo = 50) ∧
    (∀ (m : MathLib) (self opp : Robot) (action : String) (arena : ℚ),
      0 ≤ self.ammo → self.ammo ≤ 50 →
        (0 ≤ ((execute_action m self opp action arena).1).ammo ∧
          ((execute_action m self opp action arena).1).ammo ≤ 50) ∧
        (action = "reload" →
          ((execute_action m self opp action arena).1).ammo =
            min 50 (self.ammo + 10)) ∧
        (action = "shoot" → 0 < self.ammo →
          ((execute_action m self opp action arena).1).ammo =
            self.ammo - 1) ∧
        (action = "shoot" → self.ammo = 0 →
          ((execute_action m self opp action arena).1).ammo = self.ammo)) ∧
    (∀ (m : MathLib) (self opp : Robot) (arena : ℚ) (acts : List String),
      0 ≤ self.ammo → self.ammo ≤ 50 →
        0 ≤ (execSeq m arena (self, opp) acts).1.ammo ∧
        (execSeq m arena (self, opp) acts).1.ammo ≤ 50) := by
  refine ⟨fun x y d => rfl, ?_, ?_⟩
  · intro m self opp action arena h0 h50
    refine ⟨execute_action_ammo m self opp action arena h0 h50, ?_, ?_, ?_⟩
    · intro ha
      subst ha
      rw [exec_reload]
    · intro ha hpos
      subst ha
      rw [exec_shoot_live m self opp arena hpos]
      split
      · rfl
      · rfl
    · intro ha hz
      subst ha
      rw [exec_shoot_empty m self opp arena (by omega)]
  · intro m self opp arena acts
    induction acts generalizing self opp with
    | nil => intro h0 h50; exact ⟨h0, h50⟩
    | cons a rest ih =>
      intro h0 h50
      have hstep := execute_action_ammo m self opp a arena h0 h50
      simpa [execSeq] using
        ih (execute_action m self opp a arena).1
          (execute_action m self opp a arena).2 hstep.1 hstep.2

/-- C5 witness: the invariant applied to a concrete robot and action
sequence. -/
theorem ammo_invariant_instance :
    0 ≤ (execSeq zeroLib 200 (shooterA, targetB 7)
      ["shoot", "reload", "shoot", "do_nothing"]).1.ammo ∧
    (execSeq zeroLib 200 (shooterA, targetB 7)
      ["shoot", "reload", "shoot", "do_nothing"]).1.ammo ≤ 50 :=
  ammo_invariant.2.2 zeroLib shooterA (targetB 7) 200
    ["shoot", "reload", "shoot", "do_nothing"] (by decide) (by decide)

/-- C4 counterexample: with zero ammo, something does happen — the
attempted shoot is still recorded in `last_action`, so the shooter's state
is not left unchanged. -/
theorem shoot_nothing_happens_cex :
    ammo0Bot.ammo = 0 ∧ ammo0Bot.last_action = none ∧
    (execute_action zeroLib ammo0Bot (targetB 0) "shoot" 200).1.last_action =
      some "shoot" ∧
    (execute_action zeroLib ammo0Bot (targetB 0) "shoot" 200).1 ≠ ammo0Bot := by
  decide

/-- C4 (amended: apart from `last_action` recording the attempted shoot):
with zero ammo a shoot changes nothing else; with positive ammo it
consumes exactly 1 ammo and deals exactly 20 damage iff the wrapped
angular difference is below π/8 and the distance is below 50, with no
other state change; concretely, a shooter at (60,100) heading 0 against an
opponent at (100,100) drops the opponent from health 100 to 80 and its own
ammo from 50 to 49 in one action. -/
theorem shoot_semantics (m : MathLib) (hA : m.atan2 0 40 = 0)
    (hS : m.sqrt 1600 = 40) (hpi : 0 < m.pi) :
    (∀ (self opp : Robot) (arena : ℚ), self.ammo = 0 →
      execute_action m self opp "shoot" arena =
        ({ self with last_action := some "shoot" }, opp)) ∧
    (∀ (self opp : Robot) (arena : ℚ), 0 < self.ammo →
      (execute_action m self opp "shoot" arena).1 =
        { self with ammo := self.ammo - 1, last_action := some "shoot" } ∧
      (shotHits m self opp →
        (execute_action m self opp "shoot" arena).2 =
          { opp with health := opp.health - 20 }) ∧
      (¬shotHits m self opp →
        (execute_action m self opp "shoot" arena).2 = opp)) ∧
    (∀ (d arena : ℚ),
      (execute_action m shooterA (targetB d) "shoot" arena).2.health = 80 ∧
      (execute_action m shooterA (targetB d) "shoot" arena).1.ammo = 49) := by
  have hlive : ∀ (self opp : Robot) (arena : ℚ), 0 < self.ammo →
      (execute_action m self opp "shoot" arena).1 =
        { self with ammo := self.ammo - 1, last_action := some "shoot" } ∧
      (shotHits m self opp →
        (execute_action m self opp "shoot" arena).2 =
          { opp with health := opp.health - 20 }) ∧
      (¬shotHits m self opp →
        (execute_action m self opp "shoot" arena).2 = opp) := by
    intro self opp arena hpos
    rw [exec_shoot_live m self opp arena hpos]
    by_cases hh : shotHits m self opp
    · have hh2 : shotHits m
          { self with ammo := self.ammo - 1, last_action := some "shoot" }
          opp := hh
      rw [if_pos hh2]
      exact ⟨rfl, fun _ => rfl, fun hn => absurd hh hn⟩
    · have hh2 : ¬shotHits m
          { self with ammo := self.ammo - 1, last_action := some "shoot" }
          opp := hh
      rw [if_neg hh2]
      exact ⟨rfl, fun hc => absurd hc hh, fun _ => rfl⟩
  refine ⟨fun self opp arena hz =>
    exec_shoot_empty m self opp arena (by omega), hlive, ?_⟩
  intro d arena
  have hhit : shotHits m shooterA (targetB d) := by
    unfold shotHits shooterA targetB
    constructor
    · norm_num
      rw [hA]
      simp [fmod]
      linarith
    · norm_num
      rw [hS]
      norm_num
  have h := hlive shooterA (targetB d) arena (by decide)
  constructor
  · rw [h.2.1 hhit]
    norm_num [targetB]
  · rw [h.1]
    norm_num [shooterA]

/-- C4 witness: the concrete scenario under a math library realizing the
three arithmetic facts. -/
theorem shoot_semantics_instance :
    (execute_action testLib shooterA (targetB 7) "shoot" 200).2.health = 80 ∧
    (execute_action testLib shooterA (targetB 7) "shoot" 200).1.ammo = 49 :=
  (shoot_semantics testLib (by norm_num [testLib]) (by norm_num [testLib])
    (by norm_num [testLib])).2.2 7 200

/-- C2: whenever a match completes without raising, side 1's fitness is
incremented by exactly 1 iff robot 1 survived and robot 2 is dead at
termination (symmetrically for side 2), no fitness changes otherwise, and
a match with a 0-step budget leaves both fitness values unchanged for any
initial placement of freshly created robots. -/
theorem match_outcome_rule :
    (∀ (m : MathLib) (f1 f2 : Prog) (arena : ℚ) (steps : ℕ)
       (r1 r2 : Robot) (fit1 fit2 g1 g2 : ℚ) (s1 s2 : Robot),
      runMatch m f1 f2 arena steps r1 r2 fit1 fit2 = .ok (g1, g2, s1, s2) →
        (g1 = fit1 + 1 ↔ 0 < s1.health ∧ s2.health ≤ 0) ∧
        (g2 = fit2 + 1 ↔ 0 < s2.health ∧ s1.health ≤ 0) ∧
        (¬(0 < s1.health ∧ s2.health ≤ 0) ∧
          ¬(0 < s2.health ∧ s1.health ≤ 0) → g1 = fit1 ∧ g2 = fit2)) ∧
    (∀ (m : MathLib) (f1 f2 : Prog) (arena x1 y1 d1 x2 y2 d2 fit1 fit2 : ℚ),
      runMatch m f1 f2 arena 0 (Robot.init x1 y1 d1) (Robot.init x2 y2 d2)
        fit1 fit2 =
        .ok (fit1, fit2, Robot.init x1 y1 d1, Robot.init x2 y2 d2)) := by
  constructor
  · intro m f1 f2 arena steps r1 r2 fit1 fit2 g1 g2 s1 s2 h
    unfold runMatch at h
    cases hb : battleLoop m f1 f2 arena steps r1 r2 with
    | error e =>
      rw [hb] at h
      exact absurd h (by simp)
    | ok p =>
      obtain ⟨a, b⟩ := p
      rw [hb] at h
      simp only [Except.ok.injEq, Prod.mk.injEq] at h
      obtain ⟨hg1, hg2, hs1, hs2⟩ := h
      subst hs1
      subst hs2
      have hf := fitnessUpdate_spec fit1 fit2 a b
      rw [hg1, hg2] at hf
      exact hf
  · intro m f1 f2 arena x1 y1 d1 x2 y2 d2 fit1 fit2
    rfl

/-- C2 witness: a 0-step match on concrete robots leaves fitness (5, 7)
unchanged; the outcome rule instantiated on that completed run. -/
theorem match_outcome_rule_instance :
    ((5 : ℚ) = 5 + 1 ↔
      0 < (Robot.init 60 100 0).health ∧ (Robot.init 100 100 0).health ≤ 0) ∧
    ((7 : ℚ) = 7 + 1 ↔
      0 < (Robot.init 100 100 0).health ∧ (Robot.init 60 100 0).health ≤ 0) ∧
    (¬(0 < (Robot.init 60 100 0).health ∧
        (Robot.init 100 100 0).health ≤ 0) ∧
      ¬(0 < (Robot.init 100 100 0).health ∧
        (Robot.init 60 100 0).health ≤ 0) →
      (5 : ℚ) = 5 ∧ (7 : ℚ) = 7) :=
  match_outcome_rule.1 zeroLib cProg cProg 200 0 (Robot.init 60 100 0)
    (Robot.init 100 100 0) 5 7 5 7 (Robot.init 60 100 0)
    (Robot.init 100 100 0) (match_outcome_rule.2 zeroLib cProg cProg 200
      60 100 0 100 100 0 5 7)

lemma select_action_isFinite (o : PyFloat) (h : o.isFinite = true) :
    ∃ a, select_action o = .ok a := by
  cases o with
  | finite q => exact ⟨_, select_action_finite q⟩
  | inf => simp [PyFloat.isFinite] at h
  | neginf => simp [PyFloat.isFinite] at h
  | nan => simp [PyFloat.isFinite] at h

/-- C8 counterexample: a tick in which the first compiled tree outputs a
non-finite value raises (`int(abs(inf))` is an `OverflowError`), so the
match loop is not total over non-finite outputs. -/
theorem tick_nonfinite_cex :
    battleStep zeroLib infProg cProg 200 (Robot.init 60 100 0)
      (Robot.init 100 100 0) = .error "OverflowError" := by
  decide

/-- C8 (amended: totality holds for finite outputs): when both compiled
trees only return finite values, every tick and the whole battle loop of
`evaluate_individuals` complete without raising — the sensor update and
action execution are total functions and `select_action` succeeds on every
finite output. -/
theorem tick_total_finite (m : MathLib) (f1 f2 : Prog) (arena : ℚ)
    (h1 : ∀ a b c d e, (f1 a b c d e).isFinite = true)
    (h2 : ∀ a b c d e, (f2 a b c d e).isFinite = true) :
    (∀ r1 r2 : Robot, ∃ p, battleStep m f1 f2 arena r1 r2 = .ok p) ∧
    (∀ (steps : ℕ) (r1 r2 : Robot), ∃ p,
      battleLoop m f1 f2 arena steps r1 r2 = .ok p) := by
  have hstep : ∀ r1 r2 : Robot, ∃ p, battleStep m f1 f2 arena r1 r2 = .ok p := by
    intro r1 r2
    obtain ⟨a1, ha1⟩ := select_action_isFinite
      (f1 (update_sensors m r1 r2 arena).sensors.enemy_distance
        (update_sensors m r1 r2 arena).sensors.enemy_direction
        (update_sensors m r1 r2 arena).sensors.health
        (update_sensors m r1 r2 arena).sensors.ammo
        (update_sensors m r1 r2 arena).sensors.wall_distance)
      (h1 _ _ _ _ _)
    obtain ⟨a2, ha2⟩ := select_action_isFinite
      (f2 (update_sensors m r2 (update_sensors m r1 r2 arena)
            arena).sensors.enemy_distance
        (update_sensors m r2 (update_sensors m r1 r2 arena)
          arena).sensors.enemy_direction
        (update_sensors m r2 (update_sensors m r1 r2 arena)
          arena).sensors.health
        (update_sensors m r2 (update_sensors m r1 r2 arena)
          arena).sensors.ammo
        (update_sensors m r2 (update_sensors m r1 r2 arena)
          arena).sensors.wall_distance)
      (h2 _ _ _ _ _)
    simp only [battleStep]
    rw [ha1, ha2]
    exact ⟨_, rfl⟩
  refine ⟨hstep, ?_⟩
  intro steps
  induction steps with
  | zero => exact fun r1 r2 => ⟨(r1, r2), rfl⟩
  | succ n ih =>
    intro r1 r2
    obtain ⟨⟨a, b⟩, hab⟩ := hstep r1 r2
    by_cases hc : a.health ≤ 0 ∨ b.health ≤ 0
    · refine ⟨(a, b), ?_⟩
      simp only [battleLoop]
      rw [hab]
      exact if_pos hc
    · obtain ⟨p, hp⟩ := ih a b
      refine ⟨p, ?_⟩
      simp only [battleLoop]
      rw [hab]
      exact (if_neg hc).trans hp

/-- C8 witness: a run of the loop with two concrete constant-output trees
completes. -/
theorem tick_total_finite_instance :
    ∃ p, battleLoop zeroLib cProg cProg 200 3 (Robot.init 60 100 0)
      (Robot.init 100 100 0) = .ok p :=
  (tick_total_finite zeroLib cProg cProg 200 (fun _ _ _ _ _ => rfl)
    (fun _ _ _ _ _ => rfl)).2 3 (Robot.init 60 100 0) (Robot.init 100 100 0)

lemma sizeList_set (cs : List GTree) (i : ℕ) (c c2 : GTree)
    (h : cs.get? i = some c) :
    GTree.sizeList (cs.set i c2) + GTree.size c =
      GTree.sizeList cs + GTree.size c2 := by
  induction cs generalizing i with
  | nil => simp at h
  | cons x xs ih =>
    cases i with
    | zero =>
      simp only [List.get?] at h
      injection h with h
      subst h
      simp only [List.set, GTree.sizeList]
      omega
    | succ n =>
      simp only [List.get?] at h
      have e := ih n h
      simp only [List.set, GTree.sizeList]
      omega

lemma size_setSub (p : List ℕ) (s : GTree) :
    ∀ (t s0 : GTree), getSub p t = some s0 →
      GTree.size (setSub p t s) + GTree.size s0 =
        GTree.size t + GTree.size s := by
  induction p with
  | nil =>
    intro t s0 h
    simp only [getSub, Option.some.injEq] at h
    subst h
    simp only [setSub]
    omega
  | cons i p ih =>
    intro t s0 h
    cases t with
    | node l cs =>
      simp only [getSub] at h
      cases hc : cs.get? i with
      | none => rw [hc] at h; simp at h
      | some c =>
        rw [hc] at h
        replace h : getSub p c = some s0 := h
        have e1 := ih c s0 h
        have e2 := sizeList_set cs i c (setSub p c s) hc
        simp only [setSub, hc, GTree.size]
        omega

/-- C9: the subtree-swap crossover conserves the total node count: for any
two parents and any two chosen crossover points,
`size o1 + size o2 = size t1 + size t2`. -/
theorem cxOnePoint_size_conserved : ∀ (t1 t2 : GTree) (p1 p2 : List ℕ),
    GTree.size (cxOnePoint p1 p2 t1 t2).1 +
      GTree.size (cxOnePoint p1 p2 t1 t2).2 =
      GTree.size t1 + GTree.size t2 := by
  intro t1 t2 p1 p2
  unfold cxOnePoint
  cases hg1 : getSub p1 t1 with
  | none => rfl
  | some s1 =>
    cases hg2 : getSub p2 t2 with
    | none => rfl
    | some s2 =>
      have e1 := size_setSub p1 s2 t1 s1 hg1
      have e2 := size_setSub p2 s1 t2 s2 hg2
      show GTree.size (setSub p1 t1 s2) + GTree.size (setSub p2 t2 s1) =
        GTree.size t1 + GTree.size t2
      omega

lemma getD_set_self : ∀ (l : List ℚ) (i : ℕ), i < l.length → ∀ a : ℚ,
    (l.set i a).getD i 0 = a := by
  intro l
  induction l with
  | nil => intro i h; simp at h
  | cons x xs ih =>
    intro i h a
    cases i with
    | zero => rfl
    | succ n => exact ih n (by simpa using h) a

lemma getD_set_ne : ∀ (l : List ℚ) (i j : ℕ), i ≠ j → ∀ a : ℚ,
    (l.set i a).getD j 0 = l.getD j 0 := by
  intro l
  induction l with
  | nil => intro i j hne a; rfl
  | cons x xs ih =>
    intro i j hne a
    cases i with
    | zero =>
      cases j with
      | zero => exact absurd rfl hne
      | succ n => rfl
    | succ n =>
      cases j with
      | zero => rfl
      | succ k => exact ih n k (by omega) a

lemma getD_map {α : Type} (f : Ind → α) : ∀ (pop : List Ind) (i : ℕ),
    i < pop.length → ∀ (d : α),
    (pop.map f).getD i d = f (pop.getD i dInd) := by
  intro pop
  induction pop with
  | nil => intro i h; simp at h
  | cons x xs ih =>
    intro i h d
    cases i with
    | zero => rfl
    | succ n => exact ih n (by simpa using h) d

lemma writeBack_getD : ∀ (pop : List Ind) (scores : List ℚ) (i : ℕ),
    i < pop.length → i < scores.length →
    (writeBack pop scores).getD i dInd =
      { pop.getD i dInd with fitness := some (scores.getD i 0) } := by
  intro pop
  induction pop with
  | nil => intro scores i h; simp at h
  | cons x xs ih =>
    intro scores i h1 h2
    cases scores with
    | nil => simp at h2
    | cons s ss =>
      cases i with
      | zero => rfl
      | succ n =>
        exact ih ss n (by simpa using h1) (by simpa using h2)

lemma writeBack_length : ∀ (pop : List Ind) (scores : List ℚ),
    (writeBack pop scores).length = min pop.length scores.length := by
  intro pop scores
  simp [writeBack]

lemma evalInit_length (pop : List Ind) : (evalInit pop).length = pop.length := by
  simp [evalInit]

lemma evalInit_map_program (pop : List Ind) :
    (evalInit pop).map (·.program) = pop.map (·.program) := by
  simp only [evalInit, List.map_map]
  rfl

lemma mem_allPairs (n1 n2 : ℕ) (ab : ℕ × ℕ) :
    ab ∈ allPairs n1 n2 ↔ ab.1 < n1 ∧ ab.2 < n2 := by
  obtain ⟨a, b⟩ := ab
  simp only [allPairs, List.mem_flatMap, List.mem_map, List.mem_range,
    Prod.mk.injEq]
  constructor
  · rintro ⟨i, hi, j, hj, hia, hjb⟩
    subst hia
    subst hjb
    exact ⟨hi, hj⟩
  · rintro ⟨ha, hb⟩
    exact ⟨a, ha, b, hb, rfl, rfl⟩

lemma fitnessUpdate_shift (fit1 fit2 : ℚ) (a b : Robot) :
    fitnessUpdate fit1 fit2 a b =
      (fit1 + (fitnessUpdate 0 0 a b).1, fit2 + (fitnessUpdate 0 0 a b).2) := by
  unfold fitnessUpdate
  split_ifs <;> norm_num

lemma runMatch_shift (m : MathLib) (f1 f2 : Prog) (arena : ℚ) (steps : ℕ)
    (r1 r2 : Robot) (fit1 fit2 : ℚ) :
    runMatch m f1 f2 arena steps r1 r2 fit1 fit2 =
      (runMatch m f1 f2 arena steps r1 r2 0 0).map
        (fun res => (fit1 + res.1, fit2 + res.2.1, res.2.2)) := by
  unfold runMatch
  cases hb : battleLoop m f1 f2 arena steps r1 r2 with
  | error e => rfl
  | ok p =>
    obtain ⟨a, b⟩ := p
    show Except.ok ((fitnessUpdate fit1 fit2 a b).1,
        (fitnessUpdate fit1 fit2 a b).2, a, b) = _
    rw [fitnessUpdate_shift fit1 fit2 a b]
    rfl

lemma runMatch_zero_cases (m : MathLib) (f1 f2 : Prog) (arena : ℚ)
    (steps : ℕ) (r1 r2 : Robot) (res : ℚ × ℚ × Robot × Robot)
    (h : runMatch m f1 f2 arena steps r1 r2 0 0 = .ok res) :
    (res.1 = 0 ∨ res.1 = 1) ∧ (res.2.1 = 0 ∨ res.2.1 = 1) := by
  unfold runMatch at h
  cases hb : battleLoop m f1 f2 arena steps r1 r2 with
  | error e =>
    rw [hb] at h
    exact absurd h (by simp)
  | ok p =>
    obtain ⟨a, b⟩ := p
    rw [hb] at h
    simp only [Except.ok.injEq] at h
    subst h
    unfold fitnessUpdate
    split_ifs <;> norm_num

lemma rrStep_eq (m : MathLib) (rand : ℕ → ℚ) (arena : ℚ) (steps n2 : ℕ)
    (progs1 progs2 : List Prog) (st : List ℚ × List ℚ) (ab : ℕ × ℕ) :
    rrStep m rand arena steps n2 progs1 progs2 st ab =
      (pairOutcome m rand arena steps n2 progs1 progs2 ab).map
        (fun res => (st.1.set ab.1 (st.1.getD ab.1 0 + res.1),
                     st.2.set ab.2 (st.2.getD ab.2 0 + res.2.1))) := by
  unfold rrStep pairOutcome
  rw [runMatch_shift]
  cases runMatch m (progs1.getD ab.1 defProg) (progs2.getD ab.2 defProg)
      arena steps (mkMatchRobots rand (ab.1 * n2 + ab.2)).1
      (mkMatchRobots rand (ab.1 * n2 + ab.2)).2 0 0 with
  | error e => rfl
  | ok res => rfl

lemma credit1_eq (m : MathLib) (rand : ℕ → ℚ) (arena : ℚ) (steps n2 : ℕ)
    (progs1 progs2 : List Prog) (i j : ℕ) (res : ℚ × ℚ × Robot × Robot)
    (h : pairOutcome m rand arena steps n2 progs1 progs2 (i, j) = .ok res) :
    credit1 m rand arena steps n2 progs1 progs2 i j = res.1 := by
  unfold credit1
  rw [h]
  rfl

lemma credit2_eq (m : MathLib) (rand : ℕ → ℚ) (arena : ℚ) (steps n2 : ℕ)
    (progs1 progs2 : List Prog) (i j : ℕ) (res : ℚ × ℚ × Robot × Robot)
    (h : pairOutcome m rand arena steps n2 progs1 progs2 (i, j) = .ok res) :
    credit2 m rand arena steps n2 progs1 progs2 i j = res.2.1 := by
  unfold credit2
  rw [h]
  rfl

lemma credit1_cases (m : MathLib) (rand : ℕ → ℚ) (arena : ℚ) (steps n2 : ℕ)
    (progs1 progs2 : List Prog) (i j : ℕ) :
    credit1 m rand arena steps n2 progs1 progs2 i j = 0 ∨
      credit1 m rand arena steps n2 progs1 progs2 i j = 1 := by
  cases h : pairOutcome m rand arena steps n2 progs1 progs2 (i, j) with
  | error e =>
    left
    unfold credit1
    rw [h]
    rfl
  | ok res =>
    rw [credit1_eq m rand arena steps n2 progs1 progs2 i j res h]
    exact (runMatch_zero_cases _ _ _ _ _ _ _ res h).1

lemma credit2_cases (m : MathLib) (rand : ℕ → ℚ) (arena : ℚ) (steps n2 : ℕ)
    (progs1 progs2 : List Prog) (i j : ℕ) :
    credit2 m rand arena steps n2 progs1 progs2 i j = 0 ∨
      credit2 m rand arena steps n2 progs1 progs2 i j = 1 := by
  cases h : pairOutcome m rand arena steps n2 progs1 progs2 (i, j) with
  | error e =>
    left
    unfold credit2
    rw [h]
    rfl
  | ok res =>
    rw [credit2_eq m rand arena steps n2 progs1 progs2 i j res h]
    exact (runMatch_zero_cases _ _ _ _ _ _ _ res h).2

lemma rrLoop_spec (m : MathLib) (rand : ℕ → ℚ) (arena : ℚ) (steps n2 : ℕ)
    (progs1 progs2 : List Prog) :
    ∀ (L : List (ℕ × ℕ)) (st st2 : List ℚ × List ℚ),
      rrLoop m rand arena steps n2 progs1 progs2 L st = .ok st2 →
      (∀ ab ∈ L, ab.1 < st.1.length ∧ ab.2 < st.2.length) →
      st2.1.length = st.1.length ∧ st2.2.length = st.2.length ∧
      (∀ i, i < st.1.length →
        st2.1.getD i 0 = st.1.getD i 0 +
          (L.map fun ab => if ab.1 = i
            then credit1 m rand arena steps n2 progs1 progs2 ab.1 ab.2
            else 0).sum) ∧
      (∀ j, j < st.2.length →
        st2.2.getD j 0 = st.2.getD j 0 +
          (L.map fun ab => if ab.2 = j
            then credit2 m rand arena steps n2 progs1 progs2 ab.1 ab.2
            else 0).sum) := by
  intro L
  induction L with
  | nil =>
    intro st st2 h hb
    simp only [rrLoop, Except.ok.injEq] at h
    subst h
    exact ⟨rfl, rfl, fun i _ => by simp, fun j _ => by simp⟩
  | cons ab L ih =>
    intro st st2 h hb
    simp only [rrLoop] at h
    rw [rrStep_eq] at h
    cases ho : pairOutcome m rand arena steps n2 progs1 progs2 ab with
    | error e =>
      rw [ho] at h
      exact Except.noConfusion h
    | ok res =>
      rw [ho] at h
      replace h : rrLoop m rand arena steps n2 progs1 progs2 L
          (st.1.set ab.1 (st.1.getD ab.1 0 + res.1),
           st.2.set ab.2 (st.2.getD ab.2 0 + res.2.1)) = .ok st2 := h
      have hab := hb ab (List.mem_cons_self ab L)
      have hbounds : ∀ x ∈ L,
          x.1 < (st.1.set ab.1 (st.1.getD ab.1 0 + res.1)).length ∧
          x.2 < (st.2.set ab.2 (st.2.getD ab.2 0 + res.2.1)).length := by
        intro x hx
        have hx2 := hb x (List.mem_cons_of_mem ab hx)
        simpa [List.length_set] using hx2
      obtain ⟨l1, l2, f1, f2⟩ := ih _ st2 h hbounds
      refine ⟨by rw [l1, List.length_set], by rw [l2, List.length_set], ?_, ?_⟩
      · intro i hi
        have hi2 : i < (st.1.set ab.1 (st.1.getD ab.1 0 + res.1)).length := by
          simpa [List.length_set] using hi
        rw [f1 i hi2, List.map_cons, List.sum_cons]
        by_cases hii : ab.1 = i
        · subst hii
          rw [getD_set_self st.1 ab.1 hab.1, if_pos rfl,
            credit1_eq m rand arena steps n2 progs1 progs2 ab.1 ab.2 res ho]
          ring
        · rw [getD_set_ne st.1 ab.1 i hii, if_neg hii]
          ring
      · intro j hj
        have hj2 : j < (st.2.set ab.2 (st.2.getD ab.2 0 + res.2.1)).length := by
          simpa [List.length_set] using hj
        rw [f2 j hj2, List.map_cons, List.sum_cons]
        by_cases hjj : ab.2 = j
        · subst hjj
          rw [getD_set_self st.2 ab.2 hab.2, if_pos rfl,
            credit2_eq m rand arena steps n2 progs1 progs2 ab.1 ab.2 res ho]
          ring
        · rw [getD_set_ne st.2 ab.2 j hjj, if_neg hjj]
          ring

lemma allPairs_succ (n1 n2 : ℕ) :
    allPairs (n1 + 1) n2 =
      allPairs n1 n2 ++ (List.range n2).map fun j => (n1, j) := by
  unfold allPairs
  rw [List.range_succ, List.flatMap_append]
  simp

lemma sum_range_indicator (c : ℕ → ℚ) : ∀ (n j : ℕ), j < n →
    ((List.range n).map fun x => if x = j then c x else 0).sum = c j := by
  intro n
  induction n with
  | zero => intro j h; omega
  | succ k ih =>
    intro j h
    rw [List.range_succ, List.map_append, List.sum_append]
    by_cases hjk : j < k
    · rw [ih j hjk]
      have hne : ¬(k = j) := by omega
      simp [hne]
    · have hje : j = k := by omega
      subst hje
      have hz : ((List.range j).map fun x => if x = j then c x else 0).sum = 0 := by
        apply List.sum_eq_zero
        intro y hy
        simp only [List.mem_map, List.mem_range] at hy
        obtain ⟨x, hx, he⟩ := hy
        rw [← he, if_neg (by omega)]
      rw [hz]
      simp

lemma sum_allPairs_row (g : ℕ → ℕ → ℚ) (n1 n2 : ℕ) : ∀ (i : ℕ), i < n1 →
    ((allPairs n1 n2).map fun ab => if ab.1 = i then g ab.1 ab.2 else 0).sum =
      ((List.range n2).map fun j => g i j).sum := by
  induction n1 with
  | zero => intro i hi; omega
  | succ n ihn =>
    intro i hi
    rw [allPairs_succ, List.map_append, List.sum_append]
    by_cases hin : i < n
    · rw [ihn i hin]
      have hz : (((List.range n2).map fun j => (n, j)).map
          fun ab => if ab.1 = i then g ab.1 ab.2 else 0).sum = 0 := by
        rw [List.map_map]
        apply List.sum_eq_zero
        intro y hy
        simp only [List.mem_map, List.mem_range, Function.comp_apply] at hy
        obtain ⟨x, hx, he⟩ := hy
        rw [← he]
        exact if_neg (by omega)
      rw [hz]
      ring
    · have hie : i = n := by omega
      subst hie
      have hz : ((allPairs i n2).map
          fun ab => if ab.1 = i then g ab.1 ab.2 else 0).sum = 0 := by
        apply List.sum_eq_zero
        intro y hy
        simp only [List.mem_map] at hy
        obtain ⟨ab, hab, he⟩ := hy
        have hm := (mem_allPairs i n2 ab).1 hab
        rw [← he]
        exact if_neg (by omega)
      have hrow : (((List.range n2).map fun j => (i, j)).map
          fun ab => if ab.1 = i then g ab.1 ab.2 else 0).sum =
          ((List.range n2).map fun j => g i j).sum := by
        rw [List.map_map]
        congr 1
        apply List.map_congr_left
        intro x hx
        simp
      rw [hz, hrow]
      ring

lemma sum_allPairs_col (g : ℕ → ℕ → ℚ) (n2 : ℕ) (j : ℕ) (hj : j < n2) :
    ∀ (n1 : ℕ),
    ((allPairs n1 n2).map fun ab => if ab.2 = j then g ab.1 ab.2 else 0).sum =
      ((List.range n1).map fun i => g i j).sum := by
  intro n1
  induction n1 with
  | zero => rfl
  | succ n ihn =>
    rw [allPairs_succ, List.map_append, List.sum_append, ihn,
      List.range_succ, List.map_append, List.sum_append]
    have hrow : (((List.range n2).map fun j2 => (n, j2)).map
        fun ab => if ab.2 = j then g ab.1 ab.2 else 0).sum = g n j := by
      rw [List.map_map]
      have he : (((fun ab : ℕ × ℕ => if ab.2 = j then g ab.1 ab.2 else 0) ∘
          fun j2 => (n, j2))) = fun j2 => if j2 = j then g n j2 else 0 := rfl
      rw [he]
      exact sum_range_indicator (fun x => g n x) n2 j hj
    rw [hrow]
    simp

lemma sum_indicator_count (f : ℕ → ℚ) (hf : ∀ x, f x = 0 ∨ f x = 1) :
    ∀ (l : List ℕ),
    (l.map f).sum = ((l.filter fun x => decide (f x = 1)).length : ℚ) := by
  intro l
  induction l with
  | nil => simp
  | cons x xs ih =>
    rw [List.map_cons, List.sum_cons, List.filter_cons]
    rcases hf x with h0 | h1
    · have hd : (decide (f x = 1)) = false := by
        rw [h0]
        decide
      rw [hd, h0, ih]
      simp
    · have hd : (decide (f x = 1)) = true := by
        rw [h1]
        decide
      rw [hd, h1, ih, if_pos rfl]
      push_cast [List.length_cons]
      ring

lemma evalInit_scores (pop : List Ind) :
    (evalInit pop).map (fun i => i.fitness.getD 0) =
      pop.map fun i => i.fitness.getD 0 := by
  simp only [evalInit, List.map_map]
  rfl

/-- C1 (amended): after `evaluate_individuals` on two pools, every
individual's score equals the score it carried into the round robin — its
previously accumulated score when its fitness was still valid, 0 only when
it entered Unevaluated — plus its number of wins in this round robin's
N×N matches. -/
theorem evaluate_individuals_scores (m : MathLib) (rand : ℕ → ℚ)
    (arena : ℚ) (steps : ℕ) (pop1 pop2 pop1x pop2x : List Ind)
    (h : evaluate_individuals m rand arena steps pop1 pop2 =
      .ok (pop1x, pop2x)) :
    pop1x.length = pop1.length ∧ pop2x.length = pop2.length ∧
    (∀ i, i < pop1.length →
      (pop1x.getD i dInd).fitness =
        some ((pop1.getD i dInd).fitness.getD 0 +
          (winCount1 m rand arena steps pop2.length (pop1.map (·.program))
            (pop2.map (·.program)) i : ℚ))) ∧
    (∀ j, j < pop2.length →
      (pop2x.getD j dInd).fitness =
        some ((pop2.getD j dInd).fitness.getD 0 +
          (winCount2 m rand arena steps pop1.length pop2.length
            (pop1.map (·.program)) (pop2.map (·.program)) j : ℚ))) := by
  have hlen1 := evalInit_length pop1
  have hlen2 := evalInit_length pop2
  simp only [evaluate_individuals] at h
  rw [evalInit_map_program pop1, evalInit_map_program pop2,
    evalInit_scores pop1, evalInit_scores pop2, hlen1, hlen2] at h
  cases hrr : rrLoop m rand arena steps pop2.length (pop1.map (·.program))
      (pop2.map (·.program)) (allPairs pop1.length pop2.length)
      (pop1.map fun i => i.fitness.getD 0,
       pop2.map fun i => i.fitness.getD 0) with
  | error e =>
    rw [hrr] at h
    exact Except.noConfusion h
  | ok stf =>
    rw [hrr] at h
    replace h : (Except.ok (writeBack (evalInit pop1) stf.1,
        writeBack (evalInit pop2) stf.2) :
        Except String (List Ind × List Ind)) = .ok (pop1x, pop2x) := h
    simp only [Except.ok.injEq, Prod.mk.injEq] at h
    obtain ⟨h1x, h2x⟩ := h
    subst h1x
    subst h2x
    have hb : ∀ ab ∈ allPairs pop1.length pop2.length,
        ab.1 < (pop1.map fun i => i.fitness.getD 0).length ∧
        ab.2 < (pop2.map fun i => i.fitness.getD 0).length := by
      intro ab hab
      have hm := (mem_allPairs _ _ ab).1 hab
      simpa [List.length_map] using hm
    obtain ⟨l1, l2, f1, f2⟩ := rrLoop_spec m rand arena steps pop2.length
      (pop1.map (·.program)) (pop2.map (·.program))
      (allPairs pop1.length pop2.length) _ stf hrr hb
    have hst1 : stf.1.length = pop1.length := by
      rw [l1, List.length_map]
    have hst2 : stf.2.length = pop2.length := by
      rw [l2, List.length_map]
    refine ⟨?_, ?_, ?_, ?_⟩
    · rw [writeBack_length, hlen1, hst1]
      simp
    · rw [writeBack_length, hlen2, hst2]
      simp
    · intro i hi
      have hiE : i < (evalInit pop1).length := by rw [hlen1]; exact hi
      have hiS : i < stf.1.length := by rw [hst1]; exact hi
      rw [writeBack_getD (evalInit pop1) stf.1 i hiE hiS]
      show some (stf.1.getD i 0) = _
      have hf := f1 i (by rw [List.length_map]; exact hi)
      rw [hf]
      rw [getD_map (fun x => x.fitness.getD 0) pop1 i hi 0]
      rw [sum_allPairs_row (credit1 m rand arena steps pop2.length
        (pop1.map (·.program)) (pop2.map (·.program))) pop1.length
        pop2.length i hi]
      rw [sum_indicator_count
        (fun j => credit1 m rand arena steps pop2.length
          (pop1.map (·.program)) (pop2.map (·.program)) i j)
        (fun j => credit1_cases m rand arena steps pop2.length
          (pop1.map (·.program)) (pop2.map (·.program)) i j)
        (List.range pop2.length)]
      rfl
    · intro j hj
      have hjE : j < (evalInit pop2).length := by rw [hlen2]; exact hj
      have hjS : j < stf.2.length := by rw [hst2]; exact hj
      rw [writeBack_getD (evalInit pop2) stf.2 j hjE hjS]
      show some (stf.2.getD j 0) = _
      have hf := f2 j (by rw [List.length_map]; exact hj)
      rw [hf]
      rw [getD_map (fun x => x.fitness.getD 0) pop2 j hj 0]
      rw [sum_allPairs_col (credit2 m rand arena steps pop2.length
        (pop1.map (·.program)) (pop2.map (·.program))) pop2.length j hj
        pop1.length]
      rw [sum_indicator_count
        (fun i => credit2 m rand arena steps pop2.length
          (pop1.map (·.program)) (pop2.map (·.program)) i j)
        (fun i => credit2_cases m rand arena steps pop2.length
          (pop1.map (·.program)) (pop2.map (·.program)) i j)
        (List.range pop1.length)]
      rfl

/-- C1 witness: the amended score equation applied to a concrete
evaluation of two one-individual pools with carried-over scores. -/
theorem evaluate_individuals_scores_instance :
    ([indA].getD 0 dInd).fitness =
      some (([indA].getD 0 dInd).fitness.getD 0 +
        (winCount1 zeroLib (fun _ => 100) 200 0 [indB].length
          ([indA].map (·.program)) ([indB].map (·.program)) 0 : ℚ)) :=
  (evaluate_individuals_scores zeroLib (fun _ => 100) 200 0 [indA] [indB]
    [indA] [indB] rfl).2.2.1 0 (by decide)

/-- C1 counterexample: an offspring untouched by crossover and mutation
(all variation coins false) enters the round robin with its fitness still
valid (score 3, not Unevaluated), and after `evaluate_individuals` its
score is still 3 although it won 0 matches in this generation — the score
is carried over, not zero-based. -/
theorem offspring_fitness_carryover_cex :
    ((varied (fun _ => 0) (fun _ => false) (fun _ => false)
        (fun a b => (a, b)) id [indA]).map (·.fitness) = [some 3]) ∧
    ((generationStep zeroLib (fun _ => 100) (fun _ => 0) (fun _ => 0)
        (fun _ => false) (fun _ => false) (fun _ => false) (fun _ => false)
        (fun a b => (a, b)) id 200 100 [indA] [indB]).map
      (fun p => (p.1.map (·.fitness), p.2.map (·.fitness))) =
      .ok ([some 3], [some 2])) ∧
    winCount1 zeroLib (fun _ => 100) 200 100 1 ([indA].map (·.program))
      ([indB].map (·.program)) 0 = 0 ∧
    some (3 : ℚ) ≠ some (0 : ℚ) := by
  refine ⟨by decide, by decide, by decide, by decide⟩

/-- C7: there is no configuration validation — `coevolution` with the
invalid configuration `pop_size = 0`, `generations = 0` returns normally
with empty results instead of raising a configuration error, and with
`pop_size = 0`, `generations = 1` it raises a `ZeroDivisionError` from the
per-generation statistics, not a setup-time configuration error. -/
theorem coevolution_invalid_config_runs :
    coevolution zeroLib (fun _ => dInd) (fun _ => dInd) (fun _ => 100)
      (fun _ _ => 100) (fun _ _ => 0) (fun _ _ => 0) (fun _ _ => false)
      (fun _ _ => false) (fun _ _ => false) (fun _ _ => false)
      (fun a b => (a, b)) id 0 0 = .ok ([], [], [], [], [], []) ∧
    coevolution zeroLib (fun _ => dInd) (fun _ => dInd) (fun _ => 100)
      (fun _ _ => 100) (fun _ _ => 0) (fun _ _ => 0) (fun _ _ => false)
      (fun _ _ => false) (fun _ _ => false) (fun _ _ => false)
      (fun a b => (a, b)) id 0 1 = .error "ZeroDivisionError" :=
  ⟨rfl, rfl⟩

end RobotsCoev
